import Mathlib

/-!
Verification of the tvocmeter firmware (bertrik/tvocmeter).

The definitions below are a shallow embedding of the firmware's core logic:
the running averager (`averager_t`, the `tvoc_avg` / `eco2_avg` handling in
`loop`), the wraparound arithmetic of the period scheduler
(`unsigned long second = millis() / 1000` and `(second - last) > PERIOD`),
the MQTT publish helper `mqtt_send`, the calibration restore in `setup`,
the LED level mapper `show_on_led`, and the main `loop` of the variant that
carries the last-will/status logic and the connectivity watchdog.
Machine integers are modelled as `Nat` with explicit reduction modulo
`2^32` (`unsigned long` / `uint32_t`) and `2^16` (`uint16_t`).
-/

/-- Modulus of a 32-bit unsigned integer (`unsigned long` / `uint32_t`). -/
def U32 : Nat := 4294967296

/-- Modulus of a 16-bit unsigned integer (`uint16_t`). -/
def U16 : Nat := 65536

/-- `BASELINE_PERIOD_SEC` from the source. -/
def BASELINE_PERIOD_SEC : Nat := 3600

/-- `ENV_PERIOD_SEC` from the source. -/
def ENV_PERIOD_SEC : Nat := 10

/-- `LOG_PERIOD_SEC` from the source. -/
def LOG_PERIOD_SEC : Nat := 10

/-- `NVDATA_MAGIC` from the source (`0x1337`). -/
def NVDATA_MAGIC : Nat := 0x1337

/-- 32-bit unsigned subtraction: the value of `a - b` computed on
`unsigned long` operands, i.e. `(a - b) mod 2^32`. -/
def usub32 (a b : Nat) : Nat := (a % U32 + (U32 - b % U32)) % U32

/-- The scheduler clock of the firmware: `unsigned long second = millis() / 1000`,
where `t` is the absolute (non-wrapping) number of milliseconds since boot and
`millis()` returns `t mod 2^32`. -/
def secondOf (t : Nat) : Nat := (t % U32) / 1000

/-- Modelled from the spec: the true elapsed time in whole seconds between two
absolute millisecond instants `t0 ≤ t1`.  This is the ideal comparator that the
spec's wraparound-safety sentence measures the code's check against. -/
def trueElapsedSec (t0 t1 : Nat) : Nat := (t1 - t0) / 1000

/-- The `averager_t` struct of the source: `uint32_t total; uint16_t count`. -/
structure averager_t where
  total : Nat
  count : Nat
deriving Repr, DecidableEq

/-- One sample accumulation, as in `tvoc_avg.total += tvoc; tvoc_avg.count++`
with `uint32_t` / `uint16_t` wraparound. -/
def accumulate (a : averager_t) (v : Nat) : averager_t :=
  ⟨(a.total + v) % U32, (a.count + 1) % U16⟩

/-- The averaging expression of the drain:
`(tvoc_avg.total + (tvoc_avg.count / 2)) / tvoc_avg.count`, computed in
`uint32_t` arithmetic: the addition wraps modulo `2^32`; the quotient cannot
exceed the dividend, so the division needs no further reduction. -/
def drainValue (a : averager_t) : Nat :=
  (a.total + a.count / 2) % U32 / a.count

/-- The drain block of `loop`:
`if (count > 0) { v = (total + count/2)/count; total = 0; count = 0; ... }`.
Returns the computed average (before the `uint16_t` store) and the new
averager state; on `count == 0` nothing happens. -/
def drainStep (a : averager_t) : Option Nat × averager_t :=
  if 0 < a.count then (some (drainValue a), ⟨0, 0⟩) else (none, a)

/-- Accumulating a whole list of samples into a fresh averager. -/
def accumList (l : List Nat) : averager_t := l.foldl accumulate ⟨0, 0⟩

/-- Folding `accumulate` over a list adds the list sum modulo `2^32` and the
list length modulo `2^16`, provided the starting state is already reduced. -/
theorem accum_foldl (l : List Nat) (a : averager_t)
    (ht : a.total < U32) (hc : a.count < U16) :
    l.foldl accumulate a =
      ⟨(a.total + l.sum) % U32, (a.count + l.length) % U16⟩ := by
  induction l generalizing a with
  | nil =>
    cases a with
    | mk t c =>
      simp only [List.foldl_nil, List.sum_nil, List.length_nil, Nat.add_zero]
      simp_all [Nat.mod_eq_of_lt]
  | cons x xs ih =>
    have hU32 : 0 < U32 := by simp [U32]
    have hU16 : 0 < U16 := by simp [U16]
    rw [List.foldl_cons,
      ih (accumulate a x) (Nat.mod_lt _ hU32) (Nat.mod_lt _ hU16)]
    simp only [accumulate, List.sum_cons, List.length_cons,
      averager_t.mk.injEq]
    constructor
    · rw [Nat.mod_add_mod]
      congr 1
      omega
    · rw [Nat.mod_add_mod]
      congr 1
      omega

/-- The state reached by accumulating a list of samples from the reset state. -/
theorem accumList_eq (l : List Nat) :
    accumList l = ⟨l.sum % U32, l.length % U16⟩ := by
  rw [accumList, accum_foldl l ⟨0, 0⟩ (by simp [U32]) (by simp [U16])]
  simp

/-- Round-half-up arithmetic: for positive `c`, the C expression
`(s + c/2) / c` equals `⌊(s + c/2) / c⌋` over the rationals, i.e.
`(2*s + c) / (2*c)` in integer division. -/
theorem half_round (s c : Nat) (hc : 0 < c) :
    (s + c / 2) / c = (2 * s + c) / (2 * c) := by
  rcases Nat.even_or_odd c with hE | hO
  · obtain ⟨d, hd⟩ := hE
    subst hd
    have hd0 : 0 < d := by omega
    have h2 : (d + d) / 2 = d := by omega
    rw [h2]
    have hnum : 2 * s + (d + d) = 2 * (s + d) := by ring
    have hden : 2 * (d + d) = 2 * (d + d) := rfl
    rw [hnum]
    rw [Nat.mul_div_mul_left (s + d) (d + d) (by omega : 0 < 2)]
  · obtain ⟨d, hd⟩ := hO
    subst hd
    have hb : 0 < 2 * d + 1 := by omega
    have h2 : (2 * d + 1) / 2 = d := by omega
    rw [h2]
    have hdm := Nat.div_add_mod (s + d) (2 * d + 1)
    have hr : (s + d) % (2 * d + 1) < 2 * d + 1 := Nat.mod_lt _ hb
    set q := (s + d) / (2 * d + 1) with hq
    set r := (s + d) % (2 * d + 1) with hrdef
    have h' : s + d = (2 * d + 1) * q + r := hdm.symm
    have hnum : 2 * s + (2 * d + 1) = 2 * r + 1 + 2 * (2 * d + 1) * q := by
      calc 2 * s + (2 * d + 1) = 2 * (s + d) + 1 := by ring
        _ = 2 * ((2 * d + 1) * q + r) + 1 := by rw [h']
        _ = 2 * r + 1 + 2 * (2 * d + 1) * q := by ring
    rw [hnum]
    rw [Nat.add_mul_div_left (2 * r + 1) q (by omega : 0 < 2 * (2 * d + 1))]
    rw [Nat.div_eq_of_lt (by omega : 2 * r + 1 < 2 * (2 * d + 1))]
    simp

/-- C2: for every averager state with at least one accumulated sample, the
drain returns exactly the value of the C expression `(total + count/2) / count`
— the round-half-up formula computed in the program's `uint32_t` arithmetic,
where the addition wraps modulo `2^32` — and resets both `total` and `count`
to zero in one step.  Whenever the addition does not wrap, that value is the
genuine round-half-up `(2*total + count) / (2*count)` of the true mean
`total / count`. -/
theorem averager_drain_nonempty (a : averager_t) (h : 0 < a.count) :
    drainStep a =
      (some ((a.total + a.count / 2) % U32 / a.count), (⟨0, 0⟩ : averager_t))
    ∧ (a.total + a.count / 2 < U32 →
        (a.total + a.count / 2) % U32 / a.count =
          (2 * a.total + a.count) / (2 * a.count)) := by
  constructor
  · simp [drainStep, drainValue, h]
  · intro hw
    rw [Nat.mod_eq_of_lt hw]
    exact half_round a.total a.count h

/-- Witness for C2 on the spec's own example: samples 100, 101, 102 give the
state `⟨303, 3⟩`, and the drain produces 101 and the reset state. -/
theorem averager_drain_nonempty_w :
    0 < (averager_t.mk 303 3).count
    ∧ (drainStep ⟨303, 3⟩ =
         (some (((averager_t.mk 303 3).total + (averager_t.mk 303 3).count / 2)
           % U32 / (averager_t.mk 303 3).count), (⟨0, 0⟩ : averager_t))
       ∧ ((averager_t.mk 303 3).total + (averager_t.mk 303 3).count / 2 < U32 →
           ((averager_t.mk 303 3).total + (averager_t.mk 303 3).count / 2)
             % U32 / (averager_t.mk 303 3).count =
           (2 * (averager_t.mk 303 3).total + (averager_t.mk 303 3).count) /
             (2 * (averager_t.mk 303 3).count))) :=
  ⟨by decide, averager_drain_nonempty ⟨303, 3⟩ (by decide)⟩

/-- C3: draining an empty averager (`count == 0`) produces no value and leaves
the state (both `total` and `count`) completely unchanged: an idempotent no-op. -/
theorem averager_drain_empty (a : averager_t) (h : a.count = 0) :
    drainStep a = (none, a) := by
  simp [drainStep, h]

/-- Witness for C3 at the concrete state `⟨7, 0⟩`. -/
theorem averager_drain_empty_w :
    (averager_t.mk 7 0).count = 0 ∧ drainStep ⟨7, 0⟩ = (none, ⟨7, 0⟩) :=
  ⟨rfl, averager_drain_empty ⟨7, 0⟩ rfl⟩

/-- C1 counterexample: one second of real time elapses across the `millis()`
wrap (absolute millisecond instants 4294967295 and 4294968295, i.e. the clock
reads `second = 4294967` and then `second = 0`), yet the code's check
`(second - last) > period` fires for `period = BASELINE_PERIOD_SEC` even
though the true elapsed time is 1 second — an early (doubled) firing caused
by the wrap, contradicting the claim that the check always agrees with the
true elapsed-time comparison. -/
theorem wrap_check_cex :
    usub32 (secondOf 4294968295) (secondOf 4294967295) > BASELINE_PERIOD_SEC
    ∧ ¬ (trueElapsedSec 4294967295 4294968295 > BASELINE_PERIOD_SEC) := by
  constructor
  · decide
  · decide

/-- C1 amended: the check `(now - last) > period` under 32-bit unsigned
subtraction is wraparound-safe exactly for a clock that wraps at the full
width of the arithmetic: if `sLast ≤ sNow` are absolute (non-wrapping) second
counts whose difference is below `2^32` and the timestamps are their 32-bit
truncations, the check agrees with the true elapsed-time comparison.  The
firmware's actual clock `second = millis() / 1000` instead wraps early (at
`⌈2^32/1000⌉`), so a `millis()` wrap makes each periodic task fire early
once, as `wrap_check_cex` shows. -/
theorem wrap_check_amended (sLast sNow period : Nat)
    (h1 : sLast ≤ sNow) (h2 : sNow - sLast < U32) :
    usub32 (sNow % U32) (sLast % U32) > period ↔ sNow - sLast > period := by
  simp only [usub32, U32] at h2 ⊢
  omega

/-- Witness for the amended C1: 8 elapsed seconds straddling the counter wrap
(absolute second counts 4294967294 and 4294967302) are measured exactly by the
unsigned subtraction, so the check fires for period 5. -/
theorem wrap_check_amended_w :
    (4294967294 ≤ 4294967302 ∧ 4294967302 - 4294967294 < U32)
    ∧ usub32 (4294967302 % U32) (4294967294 % U32) > 5 :=
  ⟨⟨by decide, by decide⟩,
    (wrap_check_amended 4294967294 4294967302 5 (by decide) (by decide)).mpr
      (by decide)⟩

/-- Observable actions of the firmware towards its collaborators: the broker
client (`connect` carries the last-will registration of the will-enabled
variant, `connectPlain` is the will-less `connect(esp_id)` of the other
variant, `publish` carries the retained flag), the gas sensor
(`poll` = `readAlgorithmResults`, `setBaseline`, `getBaseline`,
`setEnvData` = `setEnvironmentalData`), the EEPROM (`saveNv`) and the
device itself (`restart` = `ESP.restart()`). -/
inductive Event where
  | connect (willTopic willPayload : String) (willRetain : Bool)
  | connectPlain
  | publish (topic payload : String) (retained : Bool)
  | poll
  | setBaseline (b : Nat)
  | getBaseline
  | setEnvData
  | saveNv (b : Nat)
  | restart
deriving Repr, DecidableEq

/-- Connection state of the `PubSubClient` as the firmware observes it. -/
structure MqttState where
  connected : Bool
deriving Repr, DecidableEq

/-- The `mqtt_send` of the last-will variant:
`if (!connected) { result = connect(esp_id, statustopic, 0, retained, "offline");`
`  if (result) result = publish(statustopic, "online", retained); }`
`if (connected) result = publish(topic, value, retained); return result`.
`connectOk` and `pubOk` are the oracle results of the broker's `connect` and
`publish` calls; the returned triple is (result, new state, emitted events). -/
def mqtt_send (st : MqttState) (connectOk pubOk : Bool)
    (statustopic topic value : String) (retained : Bool) :
    Bool × MqttState × List Event :=
  if st.connected then
    (pubOk, st, [Event.publish topic value retained])
  else if connectOk then
    (pubOk, ⟨true⟩,
      [Event.connect statustopic "offline" retained,
       Event.publish statustopic "online" retained,
       Event.publish topic value retained])
  else
    (false, ⟨false⟩, [Event.connect statustopic "offline" retained])

/-- The `mqtt_send` of the will-less variant (tvocmeter.ino):
`if (!connected) { setServer(...); connect(esp_id); }`
`if (connected) publish(topic, value, true)` — the retained flag is the
literal `true` at the publish call. -/
def mqtt_send_ino (st : MqttState) (connectOk pubOk : Bool)
    (topic value : String) : Bool × MqttState × List Event :=
  if st.connected then
    (pubOk, st, [Event.publish topic value true])
  else if connectOk then
    (pubOk, ⟨true⟩, [Event.connectPlain, Event.publish topic value true])
  else
    (false, ⟨false⟩, [Event.connectPlain])

/-- C4: a publish call that starts Disconnected and whose connect succeeds
emits exactly three actions, in order: the connect carrying the last-will
registration (status topic, payload "offline", retained flag), the "online"
publish to the status topic, and only then the requested telemetry publish. -/
theorem publish_connect_success (pubOk : Bool) (stat top v : String) (r : Bool) :
    (mqtt_send ⟨false⟩ true pubOk stat top v r).2.2 =
      [Event.connect stat "offline" r,
       Event.publish stat "online" r,
       Event.publish top v r] := by
  simp [mqtt_send]

/-- C5: a publish call that starts Disconnected and whose connect fails
returns failure, emits only the failed connect attempt (no publish of any
kind), and leaves the publisher Disconnected. -/
theorem publish_connect_failure (pubOk : Bool) (stat top v : String) (r : Bool) :
    mqtt_send ⟨false⟩ false pubOk stat top v r =
      (false, ⟨false⟩, [Event.connect stat "offline" r]) := by
  simp [mqtt_send]

/-- The `level_t` struct of tvocmeter.ino: `int level; uint32_t color`.
The level field is signed (the table's terminator is -1). -/
structure level_t where
  level : Int
  color : Nat
deriving Repr, DecidableEq

/-- The `levels[]` band table of tvocmeter.ino, including its `{-1, 0}`
sentinel terminator. -/
def levels : List level_t :=
  [⟨25, 0x00FF00⟩, ⟨50, 0x00FF00⟩, ⟨100, 0x00FF00⟩, ⟨200, 0x00FF00⟩,
   ⟨400, 0xFFFF00⟩, ⟨800, 0xFFFF00⟩, ⟨1600, 0xFF0000⟩, ⟨3200, 0xFF0000⟩,
   ⟨-1, 0⟩]

/-- The `levels[]` table without its sentinel: the eight bands the render
loop actually visits. -/
def levelsActive : List level_t :=
  [⟨25, 0x00FF00⟩, ⟨50, 0x00FF00⟩, ⟨100, 0x00FF00⟩, ⟨200, 0x00FF00⟩,
   ⟨400, 0xFFFF00⟩, ⟨800, 0xFFFF00⟩, ⟨1600, 0xFF0000⟩, ⟨3200, 0xFF0000⟩]

/-- The slot-update loop of `show_on_led`:
`for (idx = 0; levels[idx].level > 0; idx++)`
`  leds[idx] = (tvoc >= levels[idx].level) ? levels[idx].color : CRGB::Black`.
Stops at the sentinel; `tvoc` is promoted to `int` for the comparison. -/
def renderSlots (tbl : List level_t) (tvoc : Nat) : List Nat :=
  match tbl with
  | [] => []
  | l :: rest =>
    if l.level > 0 then
      (if (tvoc : Int) ≥ l.level then l.color else 0) :: renderSlots rest tvoc
    else []

/-- `show_on_led(tvoc)`: writes all slots, then calls `FastLED.show()` once.
Returns the written slot colors and the number of hardware commits. -/
def show_on_led (tvoc : Nat) : List Nat × Nat :=
  (renderSlots levels tvoc, 1)

/-- The color each band renders for a given value: the band's color when its
threshold is less than or equal to the value, otherwise off (black). -/
def slotColor (tvoc : Nat) (l : level_t) : Nat :=
  if l.level ≤ (tvoc : Int) then l.color else 0

/-- C7: `show_on_led` is a pure full redraw: for every input value it writes
exactly one slot per (non-sentinel) band, giving each band whose threshold is
less than or equal to the value that band's color and every other band "off",
and issues exactly one hardware commit; at input 75 the slots of the
thresholds 25 and 50 are lit and those of 100, 200 (and all higher bands)
are off. -/
theorem render_levels (tvoc : Nat) :
    (show_on_led tvoc).1 = levelsActive.map (slotColor tvoc)
    ∧ (show_on_led tvoc).2 = 1
    ∧ (show_on_led 75).1 =
        [0x00FF00, 0x00FF00, 0, 0, 0, 0, 0, 0] := by
  refine ⟨?_, rfl, by decide⟩
  simp only [show_on_led, levels, levelsActive, renderSlots, List.map,
    slotColor]
  norm_num

/-- The non-volatile record of the source:
`struct { uint16_t baseline; uint32_t magic; } nvdata`. -/
structure nvdata_t where
  baseline : Nat
  magic : Nat
deriving Repr, DecidableEq

/-- The calibration-restore block of `setup`:
`EEPROM.get(0, nvdata); if (nvdata.magic == NVDATA_MAGIC) ccs811.setBaseline(nvdata.baseline)`.
Its observable sensor actions, given the record read from EEPROM. -/
def restoreEvents (nv : nvdata_t) : List Event :=
  if nv.magic = NVDATA_MAGIC then [Event.setBaseline nv.baseline] else []

/-- Topic construction `MQTT_TOPIC = "revspace/sensors/tvoc/%s/%s"` resolved
with the device id and a metric path. -/
def topicFor (esp sub : String) : String :=
  "revspace/sensors/tvoc/" ++ esp ++ "/" ++ sub

/-- Per-iteration inputs from the environment: sensor readiness and readings,
the value of `millis()`, the sensor's current baseline, the formatted
temperature/humidity payloads, the broker oracles and the WiFi status. -/
structure Env where
  dataAvailable : Bool
  tvoc : Nat
  eco2 : Nat
  millis : Nat
  baseline : Nat
  tempStr : String
  humStr : String
  connectOk : Bool
  pubOk : Bool
  wifiConnected : Bool
deriving Repr, DecidableEq

/-- The static variables of `loop` plus the MQTT connection state and the
in-RAM `nvdata` record. -/
structure LoopState where
  second_log : Nat
  second_baseline : Nat
  second_env : Nat
  tvoc_avg : averager_t
  eco2_avg : averager_t
  mqtt : MqttState
  nv : nvdata_t
deriving Repr, DecidableEq

/-- The sensor-poll block of `loop`: when data is available, read the TVOC and
eCO2 values and accumulate both averagers. -/
def pollPhase (avT avE : averager_t) (env : Env) :
    averager_t × averager_t × List Event :=
  if env.dataAvailable then
    (accumulate avT (env.tvoc % U16), accumulate avE (env.eco2 % U16),
      [Event.poll])
  else (avT, avE, [])

/-- The baseline-persist block of `loop`: when `BASELINE_PERIOD_SEC` has
elapsed, read the sensor baseline, stamp the record with the magic and commit
it to EEPROM. -/
def baselinePhase (second secB : Nat) (nv : nvdata_t) (env : Env) :
    Nat × nvdata_t × List Event :=
  if usub32 second secB > BASELINE_PERIOD_SEC then
    (second, ⟨env.baseline % U16, NVDATA_MAGIC⟩,
      [Event.getBaseline, Event.saveNv (env.baseline % U16)])
  else (secB, nv, [])

/-- The environment-compensation block of `loop`: when `ENV_PERIOD_SEC` has
elapsed, read temperature/humidity, forward them to the gas sensor and publish
both values retained. -/
def envPhase (esp : String) (second secE : Nat) (mq : MqttState) (env : Env) :
    Nat × MqttState × List Event :=
  if usub32 second secE > ENV_PERIOD_SEC then
    let r1 := mqtt_send mq env.connectOk env.pubOk (topicFor esp "status")
      (topicFor esp "bme280/temperature") env.tempStr true
    let r2 := mqtt_send r1.2.1 env.connectOk env.pubOk (topicFor esp "status")
      (topicFor esp "bme280/humidity") env.humStr true
    (second, r2.2.1, Event.setEnvData :: (r1.2.2 ++ r2.2.2))
  else (secE, mq, [])

/-- One drain-and-report block of `loop`: if the averager holds samples, drain
it, truncate the average to `uint16_t`, format it with the unit suffix and
publish it retained. -/
def logOne (esp : String) (mq : MqttState) (av : averager_t) (env : Env)
    (sub unitStr : String) : averager_t × MqttState × List Event :=
  match (drainStep av).1 with
  | some v =>
    let r := mqtt_send mq env.connectOk env.pubOk (topicFor esp "status")
      (topicFor esp sub) (toString (v % U16) ++ unitStr) true
    ((drainStep av).2, r.2.1, r.2.2)
  | none => ((drainStep av).2, mq, [])

/-- The TVOC/eCO2 reporting block of `loop`: when `LOG_PERIOD_SEC` has
elapsed, drain and publish both averagers. -/
def logPhase (esp : String) (second secL : Nat) (avT avE : averager_t)
    (mq : MqttState) (env : Env) :
    Nat × averager_t × averager_t × MqttState × List Event :=
  if usub32 second secL > LOG_PERIOD_SEC then
    let r1 := logOne esp mq avT env "ccs811/tvoc" " ppb"
    let r2 := logOne esp r1.2.1 avE env "ccs811/eco2" " ppm"
    (second, r1.1, r2.1, r2.2.1, r1.2.2 ++ r2.2.2)
  else (secL, avT, avE, mq, [])

/-- The connectivity watchdog at the end of `loop`:
`if (WiFi.status() != WL_CONNECTED) ESP.restart()`. -/
def watchdogPhase (env : Env) : List Event × Bool :=
  if env.wifiConnected then ([], false) else ([Event.restart], true)

/-- One iteration of `loop` of the last-will variant: sensor poll, baseline
persist, environmental compensation, TVOC/eCO2 report, keep-alive, watchdog.
Returns the next state, the emitted events in order, and whether the device
restarted. -/
def loopIter (esp : String) (st : LoopState) (env : Env) :
    LoopState × List Event × Bool :=
  let p := pollPhase st.tvoc_avg st.eco2_avg env
  let second := env.millis % U32 / 1000
  let b := baselinePhase second st.second_baseline st.nv env
  let e := envPhase esp second st.second_env st.mqtt env
  let l := logPhase esp second st.second_log p.1 p.2.1 e.2.1 env
  let w := watchdogPhase env
  (⟨l.1, b.1, e.1, l.2.1, l.2.2.1, l.2.2.2.1, b.2.1⟩,
    p.2.2 ++ (b.2.2 ++ (e.2.2 ++ (l.2.2.2.2 ++ w.1))), w.2)

/-- Repeated execution of `loop`: the device stops iterating when the
watchdog fires `ESP.restart()`. -/
def runLoop (esp : String) : LoopState → List Env → List Event
  | _, [] => []
  | st, env :: rest =>
    let r := loopIter esp st env
    if r.2.2 then r.2.1 else r.2.1 ++ runLoop esp r.1 rest

/-- Events of the whole boot: the calibration restore of `setup` followed by
the events of the first `loop` iteration. -/
def bootEvents (esp : String) (nv : nvdata_t) (st : LoopState) (env : Env) :
    List Event :=
  restoreEvents nv ++ (loopIter esp st env).2.1

/-- An event is compatible with the all-retained policy: every publish
carries `retained = true`, any other action trivially complies. -/
def retainedOk : Event → Bool
  | Event.publish _ _ r => r
  | _ => true

/-- Recognizes a `setBaseline` action. -/
def isSetBaselineEv : Event → Bool
  | Event.setBaseline _ => true
  | _ => false

/-- Recognizes a sensor poll action. -/
def isPollEv : Event → Bool
  | Event.poll => true
  | _ => false

/-- Recognizes the actions relevant to the calibration-before-poll ordering. -/
def isCalEv (e : Event) : Bool := isSetBaselineEv e || isPollEv e

theorem mqtt_send_all_retained (st : MqttState) (cOk pOk : Bool)
    (stat top v : String) :
    ((mqtt_send st cOk pOk stat top v true).2.2).all retainedOk = true := by
  rcases st with ⟨c⟩
  cases c <;> cases cOk <;> simp [mqtt_send, retainedOk]

theorem mqtt_send_filter_cal (st : MqttState) (cOk pOk : Bool)
    (stat top v : String) (r : Bool) :
    ((mqtt_send st cOk pOk stat top v r).2.2).filter isCalEv = [] := by
  rcases st with ⟨c⟩
  cases c <;> cases cOk <;>
    simp [mqtt_send, isCalEv, isSetBaselineEv, isPollEv]

theorem pollPhase_all_retained (avT avE : averager_t) (env : Env) :
    ((pollPhase avT avE env).2.2).all retainedOk = true := by
  cases hd : env.dataAvailable <;> simp [pollPhase, hd, retainedOk]

theorem pollPhase_filter_cal (avT avE : averager_t) (env : Env) :
    ((pollPhase avT avE env).2.2).filter isCalEv =
      if env.dataAvailable then [Event.poll] else [] := by
  cases hd : env.dataAvailable <;>
    simp [pollPhase, hd, isCalEv, isSetBaselineEv, isPollEv]

theorem baselinePhase_all_retained (second secB : Nat) (nv : nvdata_t)
    (env : Env) :
    ((baselinePhase second secB nv env).2.2).all retainedOk = true := by
  unfold baselinePhase
  split <;> simp [retainedOk]

theorem baselinePhase_filter_cal (second secB : Nat) (nv : nvdata_t)
    (env : Env) :
    ((baselinePhase second secB nv env).2.2).filter isCalEv = [] := by
  unfold baselinePhase
  split <;> simp [isCalEv, isSetBaselineEv, isPollEv]

theorem envPhase_all_retained (esp : String) (second secE : Nat)
    (mq : MqttState) (env : Env) :
    ((envPhase esp second secE mq env).2.2).all retainedOk = true := by
  unfold envPhase
  split
  · simp [List.all_cons, List.all_append, mqtt_send_all_retained, retainedOk]
  · simp

theorem envPhase_filter_cal (esp : String) (second secE : Nat)
    (mq : MqttState) (env : Env) :
    ((envPhase esp second secE mq env).2.2).filter isCalEv = [] := by
  unfold envPhase
  split
  · simp [List.filter_append, mqtt_send_filter_cal, isCalEv,
      isSetBaselineEv, isPollEv]
  · simp

theorem logOne_all_retained (esp : String) (mq : MqttState) (av : averager_t)
    (env : Env) (sub unitStr : String) :
    ((logOne esp mq av env sub unitStr).2.2).all retainedOk = true := by
  cases hv : (drainStep av).1 <;>
    simp [logOne, hv, mqtt_send_all_retained]

theorem logOne_filter_cal (esp : String) (mq : MqttState) (av : averager_t)
    (env : Env) (sub unitStr : String) :
    ((logOne esp mq av env sub unitStr).2.2).filter isCalEv = [] := by
  cases hv : (drainStep av).1 <;>
    simp [logOne, hv, mqtt_send_filter_cal]

theorem logPhase_all_retained (esp : String) (second secL : Nat)
    (avT avE : averager_t) (mq : MqttState) (env : Env) :
    ((logPhase esp second secL avT avE mq env).2.2.2.2).all retainedOk
      = true := by
  unfold logPhase
  split
  · simp [List.all_append, logOne_all_retained]
  · simp

theorem logPhase_filter_cal (esp : String) (second secL : Nat)
    (avT avE : averager_t) (mq : MqttState) (env : Env) :
    ((logPhase esp second secL avT avE mq env).2.2.2.2).filter isCalEv
      = [] := by
  unfold logPhase
  split
  · simp [List.filter_append, logOne_filter_cal]
  · simp

theorem watchdogPhase_all_retained (env : Env) :
    ((watchdogPhase env).1).all retainedOk = true := by
  cases hw : env.wifiConnected <;> simp [watchdogPhase, hw, retainedOk]

theorem watchdogPhase_filter_cal (env : Env) :
    ((watchdogPhase env).1).filter isCalEv = [] := by
  cases hw : env.wifiConnected <;>
    simp [watchdogPhase, hw, isCalEv, isSetBaselineEv, isPollEv]

theorem loopIter_all_retained (esp : String) (st : LoopState) (env : Env) :
    ((loopIter esp st env).2.1).all retainedOk = true := by
  simp [loopIter, List.all_append, pollPhase_all_retained,
    baselinePhase_all_retained, envPhase_all_retained,
    logPhase_all_retained, watchdogPhase_all_retained]

theorem loopIter_filter_cal (esp : String) (st : LoopState) (env : Env) :
    ((loopIter esp st env).2.1).filter isCalEv =
      if env.dataAvailable then [Event.poll] else [] := by
  simp [loopIter, List.filter_append, pollPhase_filter_cal,
    baselinePhase_filter_cal, envPhase_filter_cal,
    logPhase_filter_cal, watchdogPhase_filter_cal]

/-- C6: in the boot trace (the `setup` restore followed by a `loop`
iteration), filtering down to calibration-relevant actions leaves exactly one
`setBaseline` carrying the exact stored `baselineValue` when the record's
magic equals `NVDATA_MAGIC` — placed before any sensor poll — and no
`setBaseline` at all when the magic mismatches. -/
theorem calibration_restore (esp : String) (nv : nvdata_t) (st : LoopState)
    (env : Env) :
    (bootEvents esp nv st env).filter isCalEv =
      (if nv.magic = NVDATA_MAGIC then [Event.setBaseline nv.baseline] else [])
        ++ (if env.dataAvailable then [Event.poll] else []) := by
  rw [bootEvents, List.filter_append, loopIter_filter_cal]
  congr 1
  by_cases h : nv.magic = NVDATA_MAGIC <;>
    simp [restoreEvents, h, isCalEv, isSetBaselineEv]

/-- A quiescent loop state: all period anchors at zero, both averagers empty,
MQTT disconnected, blank record. -/
def sampleState : LoopState := ⟨0, 0, 0, ⟨0, 0⟩, ⟨0, 0⟩, ⟨false⟩, ⟨0, 0⟩⟩

/-- An environment for one iteration in which the WiFi association is lost
and nothing else fires. -/
def sampleEnvDown : Env :=
  ⟨false, 0, 0, 0, 0, "21.00", "50.00", false, false, false⟩

/-- C8: when the network association is observed lost, the iteration ends
with the restart action (the watchdog runs after everything else, so nothing
of that iteration follows it), the run stops there (the remaining scheduled
iterations and hence all their publishes never happen), and on every
iteration the restart decision is exactly the watchdog's WiFi check. -/
theorem watchdog_restart (esp : String) (st : LoopState) (env : Env)
    (rest : List Env) (h : env.wifiConnected = false) :
    (∃ pre, (loopIter esp st env).2.1 = pre ++ [Event.restart])
    ∧ runLoop esp st (env :: rest) = (loopIter esp st env).2.1
    ∧ ∀ env2 : Env, (loopIter esp st env2).2.2 = !env2.wifiConnected := by
  refine ⟨?_, ?_, ?_⟩
  · simp only [loopIter, watchdogPhase, h]
    simp only [Bool.false_eq_true, if_false, ← List.append_assoc]
    exact ⟨_, rfl⟩
  · have hflag : (loopIter esp st env).2.2 = true := by
      simp [loopIter, watchdogPhase, h]
    simp [runLoop, hflag]
  · intro env2
    cases hw : env2.wifiConnected <;> simp [loopIter, watchdogPhase, hw]

/-- Witness for C8 on a concrete state and a lost-association environment. -/
theorem watchdog_restart_w :
    sampleEnvDown.wifiConnected = false
    ∧ ((∃ pre, (loopIter "aabbcc" sampleState sampleEnvDown).2.1 =
          pre ++ [Event.restart])
       ∧ runLoop "aabbcc" sampleState [sampleEnvDown] =
           (loopIter "aabbcc" sampleState sampleEnvDown).2.1
       ∧ ∀ env2 : Env,
           (loopIter "aabbcc" sampleState env2).2.2 = !env2.wifiConnected) :=
  ⟨rfl, watchdog_restart "aabbcc" sampleState sampleEnvDown [] rfl⟩

/-- C9: every MQTT publish the firmware ever performs is retained: every
publish event of any run of the last-will variant's `loop` carries
`retained = true`, and the will-less variant's `mqtt_send` publishes with the
hard-coded literal `true` as well — no non-retained publish exists. -/
theorem publishes_all_retained (esp : String) :
    (∀ (st : LoopState) (envs : List Env),
        (runLoop esp st envs).all retainedOk = true)
    ∧ (∀ (st : MqttState) (cOk pOk : Bool) (top v : String),
        ((mqtt_send_ino st cOk pOk top v).2.2).all retainedOk = true) := by
  constructor
  · intro st envs
    induction envs generalizing st with
    | nil => simp [runLoop]
    | cons e rest ih =>
      rw [runLoop]
      split
      · exact loopIter_all_retained esp st e
      · rw [List.all_append, loopIter_all_retained esp st e, ih]
        rfl
  · intro st cOk pOk top v
    rcases st with ⟨c⟩
    cases c <;> cases cOk <;> simp [mqtt_send_ino, retainedOk]

/-- A lower bound on every element gives a lower bound on the list sum. -/
theorem length_mul_le_sum (l : List Nat) (lo : Nat) (h : ∀ x ∈ l, lo ≤ x) :
    lo * l.length ≤ l.sum := by
  induction l with
  | nil => simp
  | cons x xs ih =>
    simp only [List.length_cons, List.sum_cons]
    have hx : lo ≤ x := h x (List.mem_cons_self x xs)
    have hxs := ih (fun y hy => h y (List.mem_cons_of_mem x hy))
    rw [Nat.mul_succ, Nat.add_comm x xs.sum]
    exact Nat.add_le_add hxs hx

/-- An upper bound on every element gives an upper bound on the list sum. -/
theorem sum_le_length_mul (l : List Nat) (hi : Nat) (h : ∀ x ∈ l, x ≤ hi) :
    l.sum ≤ hi * l.length := by
  induction l with
  | nil => simp
  | cons x xs ih =>
    simp only [List.length_cons, List.sum_cons]
    have hx : x ≤ hi := h x (List.mem_cons_self x xs)
    have hxs := ih (fun y hy => h y (List.mem_cons_of_mem x hy))
    rw [Nat.mul_succ, Nat.add_comm x xs.sum]
    exact Nat.add_le_add hxs hx

/-- C10 amended: for every non-empty sequence of 16-bit samples of length
below `2^16` (so the `uint16_t` count does not wrap) whose 32-bit running sum
does not overflow, the drained round-half-up mean lies between any lower and
upper bound of the samples — in particular between their minimum and maximum —
and therefore fits in 16 bits, so the `uint16_t` store loses nothing.  The
length bound is necessary: `mean_bounds_cex` shows that with `2^16 + 1`
samples the wrapped count makes the drained value exceed every sample and
overflow 16 bits. -/
theorem mean_bounds (l : List Nat) (lo hi : Nat)
    (hne : l ≠ []) (hlen : l.length < U16) (hsum : l.sum < U32)
    (hlo : ∀ x ∈ l, lo ≤ x) (hhi : ∀ x ∈ l, x ≤ hi) (hhi16 : hi < U16) :
    drainStep (accumList l) =
      (some ((l.sum + l.length / 2) / l.length), (⟨0, 0⟩ : averager_t))
    ∧ lo ≤ (l.sum + l.length / 2) / l.length
    ∧ (l.sum + l.length / 2) / l.length ≤ hi
    ∧ (l.sum + l.length / 2) / l.length % U16 =
        (l.sum + l.length / 2) / l.length := by
  have hc : 0 < l.length := List.length_pos.mpr hne
  have hacc : accumList l = ⟨l.sum, l.length⟩ := by
    rw [accumList_eq, Nat.mod_eq_of_lt hsum, Nat.mod_eq_of_lt hlen]
  have hlow : lo * l.length ≤ l.sum := length_mul_le_sum l lo hlo
  have hup : l.sum ≤ hi * l.length := sum_le_length_mul l hi hhi
  have hU16e : U16 = 65536 := rfl
  have hU32e : U32 = 4294967296 := rfl
  have hmul : hi * l.length ≤ 65535 * 65535 :=
    Nat.mul_le_mul (by omega) (by omega)
  have hnowrap : l.sum + l.length / 2 < U32 := by
    have hs := Nat.le_trans hup hmul
    omega
  have hlov : lo ≤ (l.sum + l.length / 2) / l.length :=
    (Nat.le_div_iff_mul_le hc).mpr (Nat.le_trans hlow (Nat.le_add_right _ _))
  have hhalf : l.length / 2 < l.length := Nat.div_lt_self hc (by omega)
  have hupv : (l.sum + l.length / 2) / l.length ≤ hi := by
    have hlt : l.sum + l.length / 2 < (hi + 1) * l.length := by
      rw [Nat.succ_mul]
      exact Nat.add_lt_add_of_le_of_lt hup hhalf
    exact Nat.lt_succ_iff.mp ((Nat.div_lt_iff_lt_mul hc).mpr hlt)
  refine ⟨?_, hlov, hupv, ?_⟩
  · rw [hacc]
    simp [drainStep, drainValue, hc, Nat.mod_eq_of_lt hnowrap]
  · exact Nat.mod_eq_of_lt (Nat.lt_of_le_of_lt hupv hhi16)

/-- Witness for the amended C10 at the sample list [100, 101, 102]. -/
theorem mean_bounds_w :
    (([100, 101, 102] : List Nat) ≠ []
     ∧ ([100, 101, 102] : List Nat).length < U16
     ∧ ([100, 101, 102] : List Nat).sum < U32
     ∧ (∀ x ∈ ([100, 101, 102] : List Nat), 100 ≤ x)
     ∧ (∀ x ∈ ([100, 101, 102] : List Nat), x ≤ 102)
     ∧ 102 < U16)
    ∧ (drainStep (accumList [100, 101, 102]) =
        (some ((([100, 101, 102] : List Nat).sum +
          ([100, 101, 102] : List Nat).length / 2) /
          ([100, 101, 102] : List Nat).length), (⟨0, 0⟩ : averager_t))
       ∧ 100 ≤ (([100, 101, 102] : List Nat).sum +
           ([100, 101, 102] : List Nat).length / 2) /
           ([100, 101, 102] : List Nat).length
       ∧ (([100, 101, 102] : List Nat).sum +
           ([100, 101, 102] : List Nat).length / 2) /
           ([100, 101, 102] : List Nat).length ≤ 102
       ∧ (([100, 101, 102] : List Nat).sum +
           ([100, 101, 102] : List Nat).length / 2) /
           ([100, 101, 102] : List Nat).length % U16 =
         (([100, 101, 102] : List Nat).sum +
           ([100, 101, 102] : List Nat).length / 2) /
           ([100, 101, 102] : List Nat).length) :=
  ⟨⟨by decide, by decide, by decide, by decide, by decide, by decide⟩,
    mean_bounds [100, 101, 102] 100 102 (by decide) (by decide) (by decide)
      (by decide) (by decide) (by decide)⟩

/-- A sample value fits in 16 bits. -/
def fits16 (x : Nat) : Bool := decide (x < U16)

/-- Replicated lists satisfy `all p` as soon as the repeated element does. -/
theorem all_replicate_of (n a : Nat) (p : Nat → Bool) (h : p a = true) :
    (List.replicate n a).all p = true := by
  induction n with
  | zero => simp
  | succ k ih => simp [List.replicate_succ, h, ih]

/-- C10 counterexample: 65537 samples of value 65535 are all 16-bit and their
32-bit running sum 4294967295 does not overflow, yet the `uint16_t` count
wraps to 1, so the drain produces 4294967295 — larger than every sample
(in particular larger than the maximum, 65535) and far outside 16 bits, and
the `uint16_t` store truncates it. -/
theorem mean_bounds_cex :
    (List.replicate 65537 65535).all fits16 = true
    ∧ (List.replicate 65537 65535).sum < U32
    ∧ List.replicate 65537 65535 ≠ ([] : List Nat)
    ∧ drainStep (accumList (List.replicate 65537 65535)) =
        (some 4294967295, (⟨0, 0⟩ : averager_t))
    ∧ 65535 < 4294967295
    ∧ ¬ (4294967295 < U16)
    ∧ 4294967295 % U16 ≠ 4294967295 := by
  have hsum : (List.replicate 65537 65535).sum = 4294967295 := by
    rw [List.sum_replicate, smul_eq_mul]
  have hlen : (List.replicate 65537 65535).length = 65537 :=
    List.length_replicate 65537 65535
  refine ⟨all_replicate_of 65537 65535 fits16 (by decide), ?_, ?_, ?_,
    by decide, by decide, by decide⟩
  · rw [hsum]
    decide
  · intro hcontra
    have hl := congrArg List.length hcontra
    rw [hlen, List.length_nil] at hl
    exact absurd hl (by decide)
  · rw [accumList_eq, hsum, hlen]
    decide
